import Mathlib

/-!
Verification development for the content-service repository.

The embedding covers the two source files:
* `src/src/assets.js` — the asset fingerprint/publish pipeline
  (`fingerprint`, `publish`, `handleAsset`, `exports.accept`);
* `src/unnamed/part_000` — two generations of the envelope handlers
  (`storeEnvelope`/`indexEnvelope` plus the waterfall `exports.store`,
  `exports.retrieve`, `exports.delete`, and the newer parallel
  `exports.store`, `exports.retrieve`, `exports.delete`).

External collaborators that are not part of the repository (Node's `crypto`
and `path` modules, `encodeURIComponent`, and the `storage` module used by
the newer handlers) are modelled from the spec; each such definition carries
a doc comment starting with `Modelled from the spec:`.

Machine-level conventions: a byte is a `Nat`, a byte sequence a `List Nat`;
backend failures are surfaced as `Option Err` outcomes supplied by the
environment (the callback either receives an error or it does not); JSON
serialization into the blob store followed by parsing on retrieval is
modelled as the identity on envelope values.
-/

abbrev Bytes := List Nat

abbrev Err := String

/-- JSON-compatible values appearing in envelopes, as far as the claims need
them: strings, arrays of strings (tags/categories), numbers, and nested
objects (used for the retrieve response shape). -/
inductive JValue where
  | str (s : String)
  | strs (xs : List String)
  | num (n : Int)
  | obj (fields : List (String × JValue))

/-- A JS object as an association list in property-insertion order. -/
abbrev Envelope := List (String × JValue)

/-- Property read on a JS object: the value at the first matching key. -/
def objLookup {α : Type} (o : List (String × α)) (k : String) : Option α :=
  match o with
  | [] => none
  | (k', v') :: rest => if k' = k then some v' else objLookup rest k

/-- Property write on a JS object: overwrite the existing key in place, or
append the property when the key is absent. -/
def objInsert {α : Type} (o : List (String × α)) (k : String) (v : α) :
    List (String × α) :=
  match o with
  | [] => [(k, v)]
  | (k', v') :: rest =>
    if k' = k then (k, v) :: rest else (k', v') :: objInsert rest k v

/-- Removal of a key from a JS-object / keyed blob container. -/
def objRemove {α : Type} (o : List (String × α)) (k : String) :
    List (String × α) :=
  match o with
  | [] => []
  | (k', v') :: rest =>
    if k' = k then objRemove rest k else (k', v') :: objRemove rest k

/-- Modelled from the spec: URL-safe escaping of a ContentID before its use
as a blob key (`encodeURIComponent`, a missing external collaborator).
Alphanumeric and unreserved characters pass through; any other character is
percent-escaped from its code point. The claims depend only on store,
retrieve and delete escaping the key the same way. -/
def encodeChar (c : Char) : List Char :=
  if c.isAlphanum ∨ c ∈ ['-', '_', '.', '!', '~', '*', '(', ')'] then [c]
  else '%' :: Nat.toDigits 16 c.toNat

/-- Modelled from the spec: `encodeURIComponent` applied to a whole string. -/
def encodeURIComponent (s : String) : String :=
  String.mk ((s.data.map encodeChar).flatten)

/-! ## Hasher and AssetNamer collaborators (Node `crypto` and `path`) -/

/-- Modelled from the spec: one `hash.update(chunk)` step of Node's
incremental SHA-256 hasher. The hasher state is the byte sequence absorbed
so far; the spec requires the final digest to be a function of the
concatenated bytes only, independent of chunk boundaries. -/
def hashUpdate (st : Bytes) (chunk : Bytes) : Bytes := st ++ chunk

/-- Modelled from the spec: `hash.digest('hex')`. The spec pins no concrete
digest values, only that the digest is a deterministic function of the
accumulated byte sequence (SHA-256 equivalent), so the compression is
modelled as a deterministic 64-bit mixing fold rendered in hex. -/
def digestHex (st : Bytes) : String :=
  String.mk (Nat.toDigits 16 (st.foldl (fun a b => (a * 33 + b) % (2 ^ 64)) 5381))

/-- Helper for the `path` model: scan the reversed file name for the last
dot. `acc` accumulates the characters already passed, which end up being the
extension body in forward order. A dot that would be the first character of
the name yields no extension. Returns `(basename characters, extension
characters after the dot)`. -/
def scanExt (rev : List Char) (acc : List Char) : Option (List Char × List Char) :=
  match rev with
  | [] => none
  | c :: rest =>
    if c = '.' then
      if rest = [] then none else some (rest.reverse, acc)
    else scanExt rest (c :: acc)

/-- Modelled from the spec: the combination `path.extname(name)` /
`path.basename(name, ext)` used by `fingerprint` — split a file name into
its basename and its extension from the last dot (a leading dot starts no
extension). -/
def splitName (name : String) : String × String :=
  match scanExt name.data.reverse [] with
  | none => (name, "")
  | some (b, e) => (String.mk b, String.mk ('.' :: e))

/-! ## `src/src/assets.js` -/

/-- An uploaded asset as the handlers see it: original file name, declared
MIME type, and the contents as the list of chunks in which the file stream
delivers them. -/
structure Asset where
  name : String
  type : String
  content : List Bytes

/-- The object `fingerprint` passes to its callback (assets.js lines 40-45). -/
structure FingerprintedAsset where
  original : String
  chunks : List Bytes
  filename : String
  type : String

/-- The digest variable of `fingerprint`: the hex digest after every chunk
of the stream has been fed to `hash.update`. -/
def fingerprintDigest (a : Asset) : String :=
  digestHex (a.content.foldl hashUpdate [])

/-- Embeds `fingerprint` (assets.js lines 18-47) on a successfully read
stream: hash all chunks, split the name, and build
`basename + "-" + digest + ext` together with the retained chunks. -/
def fingerprint (a : Asset) : FingerprintedAsset :=
  let digest := fingerprintDigest a
  let be := splitName a.name
  { original := a.name
    chunks := a.content
    filename := be.1 ++ "-" ++ digest ++ be.2
    type := a.type }

/-- A stored blob: the bytes written to the upload plus its content type. -/
structure BlobObject where
  bytes : Bytes
  contentType : String

/-- Embeds `publish` (assets.js lines 52-72): the upload goes to remote name
`asset.filename` with `asset.type` as content type, and the loop
`for (var chunk in asset.chunks) up.write(chunk)` iterates the *keys* of the
chunk array, so each `up.write` receives the array index rendered as a
decimal string, not the chunk's bytes. -/
def publish (asset : FingerprintedAsset) : String × BlobObject :=
  (asset.filename,
    { bytes :=
        ((List.range asset.chunks.length).map
          (fun i => (Nat.toDigits 10 i).map Char.toNat)).flatten
      contentType := asset.type })

/-- The placeholder public URL of `exports.accept` (assets.js line 110,
`var public_url = "wat";` under a FIXME). -/
def public_url : String := "wat"

/-- The summary object built by the `results.forEach` loop of
`exports.accept`: `summary[result.original] = public_url`. -/
def summaryOf (rs : List FingerprintedAsset) : List (String × String) :=
  rs.foldl (fun s r => objInsert s r.original public_url) []

/-- The summary `exports.accept` sends for a batch in which every asset was
fingerprinted and published: `async.map` over `handleAsset`, then the
summary construction. -/
def acceptSummary (files : List Asset) : List (String × String) :=
  summaryOf (files.map fingerprint)

/-- Observable actions of the `exports.accept` final callback, in program
order. `crash` marks the TypeError raised when `results.forEach` is
evaluated with `results` undefined. -/
inductive Effect where
  | status (n : Nat)
  | sendErrorBody
  | sendSummary (s : List (String × String))
  | next
  | crash
deriving DecidableEq

/-- The success-path tail of the `exports.accept` callback (lines 107-118):
build the summary via `results.forEach`, then `res.status(200)`,
`res.send(summary)`, `next()`. When the failed `async.map` supplied no
results array, the `forEach` call itself throws. -/
def successEffects : Option (List FingerprintedAsset) → List Effect
  | none => [Effect.crash]
  | some rs => [Effect.status 200, Effect.sendSummary (summaryOf rs), Effect.next]

/-- Embeds the final callback of `exports.accept` (assets.js lines 96-119):
on error it runs `res.status(500); res.send({error: ...}); next()` but does
not return, so control falls through into the success path in every case. -/
def acceptCallback (err : Option Err) (results : Option (List FingerprintedAsset)) :
    List Effect :=
  (match err with
   | some _ => [Effect.status 500, Effect.sendErrorBody, Effect.next]
   | none => []) ++ successEffects results

/-! ## `src/unnamed/part_000` — envelope handlers -/

/-- Joint backend state: the blob container keyed by escaped ContentID, and
the search-index collection of projected documents. -/
structure State where
  blob : List (String × Envelope)
  index : List Envelope

/-- The projection keys of `indexEnvelope`
(`_.pick(doc.envelope, ["title", "publish_date", "tags", "categories"])`). -/
def pickKeys : List String := ["title", "publish_date", "tags", "categories"]

/-- lodash `_.pick`: the sub-object holding, in key-list order, exactly the
listed keys that exist on the object, with their values unchanged. -/
def lodashPick (o : Envelope) (keys : List String) : Envelope :=
  keys.filterMap (fun k => (objLookup o k).map (fun v => (k, v)))

/-- The document `indexEnvelope` inserts (part_000 lines 84-93): the picked
projection with `content_id` then set to the ContentID. -/
def indexDocFor (id : String) (e : Envelope) : Envelope :=
  objInsert (lodashPick e pickKeys) "content_id" (JValue.str id)

/-- Whether a search-index document is the document for `id`: its
`content_id` property is the string `id`. -/
def isDocFor (d : Envelope) (id : String) : Bool :=
  match objLookup d "content_id" with
  | some (JValue.str s) => s == id
  | _ => false

/-- Modelled from the spec: `storage.unindexContent` of the newer delete
handler (the `storage` module is not in the repository) — delete the
SearchIndex document for the ContentID; deleting a nonexistent document is a
no-op. -/
def unindex (idx : List Envelope) (id : String) : List Envelope :=
  idx.filter (fun d => !(isDocFor d id))

/-- The first error encountered across the two fork-join branches, in task
order. -/
def firstErr : Option Err → Option Err → Option Err
  | some e, _ => some e
  | none, b => b

/-- Embeds the waterfall `exports.store` (part_000 lines 123-140) built from
`storeEnvelope` then `indexEnvelope`: the blob upload runs first and the
index insert is only reached when it succeeded; the first callback error
aborts the waterfall and is reported. `blobErr`/`indexErr` are the outcomes
the two backends would return. -/
def storeOld (st : State) (id : String) (e : Envelope)
    (blobErr indexErr : Option Err) : State × Option Err :=
  match blobErr with
  | some er => (st, some er)
  | none =>
    let st1 := { st with blob := objInsert st.blob (encodeURIComponent id) e }
    match indexErr with
    | some er => (st1, some er)
    | none => ({ st1 with index := st1.index ++ [indexDocFor id e] }, none)

/-- Embeds the newer parallel `exports.store` (part_000 lines 192-246):
`async.parallel` launches `storage.storeContent` and `storage.indexContent`
together (both spec-modelled: full envelope to the blob store under the
escaped ContentID; projected document to the index), each branch lands
according to its own outcome, and the call reports the first error, if any. -/
def storeNew (st : State) (id : String) (e : Envelope)
    (blobErr indexErr : Option Err) : State × Option Err :=
  let st1 :=
    match blobErr with
    | none => { st with blob := objInsert st.blob (encodeURIComponent id) e }
    | some _ => st
  let st2 :=
    match indexErr with
    | none => { st1 with index := st1.index ++ [indexDocFor id e] }
    | some _ => st1
  (st2, firstErr blobErr indexErr)

/-- Embeds the older `exports.delete` (part_000 lines 145-154): a single
`removeFile` against the blob container; the index collection is never
touched. -/
def deleteOld (st : State) (id : String) (blobErr : Option Err) :
    State × Option Err :=
  match blobErr with
  | some er => (st, some er)
  | none => ({ st with blob := objRemove st.blob (encodeURIComponent id) }, none)

/-- Embeds the newer parallel `exports.delete` (part_000 lines 299-348):
`async.parallel` of `storage.deleteContent` and `storage.unindexContent`
(both spec-modelled), reporting the first error. -/
def deleteNew (st : State) (id : String) (blobErr indexErr : Option Err) :
    State × Option Err :=
  let st1 :=
    match blobErr with
    | none => { st with blob := objRemove st.blob (encodeURIComponent id) }
    | some _ => st
  let st2 :=
    match indexErr with
    | none => { st1 with index := unindex st1.index id }
    | some _ => st1
  (st2, firstErr blobErr indexErr)

/-- Outcome of a retrieve call as the claims observe it. -/
inductive RetrieveResult where
  | notFound
  | ok (doc : List (String × JValue))

/-- The `assets` value `injectAssetVars` attaches, from the asset-name to
URL directory (an external collaborator; `av` is its contents). -/
def assetsObj (av : List (String × String)) : JValue :=
  JValue.obj (av.map (fun p => (p.1, JValue.str p.2)))

/-- Embeds `exports.retrieve` (both generations, part_000 lines 98-118 and
251-294): download the envelope stored under the escaped ContentID — a
missing object is the NotFound outcome — then send the waterfall document
`doc`, which holds the parsed envelope under its `envelope` property and the
injected directory under `assets`. -/
def retrieve (st : State) (id : String) (av : List (String × String)) :
    RetrieveResult :=
  match objLookup st.blob (encodeURIComponent id) with
  | none => RetrieveResult.notFound
  | some e =>
    RetrieveResult.ok [("envelope", JValue.obj e), ("assets", assetsObj av)]

/-! ## Helper lemmas -/

theorem objLookup_objInsert_self {α : Type} (o : List (String × α)) (k : String) (v : α) :
    objLookup (objInsert o k v) k = some v := by
  induction o with
  | nil => simp [objInsert, objLookup]
  | cons p rest ih =>
    obtain ⟨k', v'⟩ := p
    by_cases h : k' = k <;> simp [objInsert, objLookup, h, ih]

theorem objLookup_objRemove_self {α : Type} (o : List (String × α)) (k : String) :
    objLookup (objRemove o k) k = none := by
  induction o with
  | nil => simp [objRemove, objLookup]
  | cons p rest ih =>
    obtain ⟨k', v'⟩ := p
    by_cases h : k' = k <;> simp [objRemove, objLookup, h, ih]

theorem mem_of_objLookup {α : Type} {o : List (String × α)} {k : String} {v : α}
    (h : objLookup o k = some v) : (k, v) ∈ o := by
  induction o with
  | nil => simp [objLookup] at h
  | cons p rest ih =>
    obtain ⟨k', v'⟩ := p
    by_cases hk : k' = k
    · subst hk
      simp [objLookup] at h
      subst h
      exact List.mem_cons_self _ _
    · rw [objLookup, if_neg hk] at h
      exact List.mem_cons_of_mem _ (ih h)

theorem objLookup_of_mem_nodup {α : Type} {o : List (String × α)} {k : String} {v : α}
    (hnd : (o.map Prod.fst).Nodup) (h : (k, v) ∈ o) : objLookup o k = some v := by
  induction o with
  | nil => simp at h
  | cons p rest ih =>
    obtain ⟨k', v'⟩ := p
    simp only [List.map_cons, List.nodup_cons] at hnd
    rcases List.mem_cons.mp h with heq | hmem
    · injection heq with h1 h2
      subst h1
      subst h2
      simp [objLookup]
    · have hk : ¬ k' = k := by
        intro hkk
        subst hkk
        exact hnd.1 (List.mem_map.mpr ⟨(k', v), hmem, rfl⟩)
      simp [objLookup, hk, ih hnd.2 hmem]

theorem objInsert_of_notMem {α : Type} {o : List (String × α)} {k : String} (v : α)
    (h : k ∉ o.map Prod.fst) : objInsert o k v = o ++ [(k, v)] := by
  induction o with
  | nil => simp [objInsert]
  | cons p rest ih =>
    obtain ⟨k', v'⟩ := p
    simp only [List.map_cons, List.mem_cons] at h
    push_neg at h
    have hk : ¬ k' = k := fun hc => h.1 hc.symm
    simp [objInsert, hk, ih h.2]

theorem mem_lodashPick {o : Envelope} {keys : List String} {k : String} {v : JValue} :
    (k, v) ∈ lodashPick o keys ↔ k ∈ keys ∧ objLookup o k = some v := by
  simp only [lodashPick, List.mem_filterMap, Option.map_eq_some']
  constructor
  · rintro ⟨k', hk', w, hw, heq⟩
    injection heq with h1 h2
    subst h1
    subst h2
    exact ⟨hk', hw⟩
  · rintro ⟨hk, hv⟩
    exact ⟨k, hk, v, hv, rfl⟩

theorem foldl_hashUpdate (cs : List Bytes) (init : Bytes) :
    cs.foldl hashUpdate init = init ++ cs.flatten := by
  induction cs generalizing init with
  | nil => simp
  | cons c rest ih => simp [hashUpdate, ih (init ++ c)]

theorem isDocFor_of_mem_unindex {idx : List Envelope} {id : String} {d : Envelope}
    (h : d ∈ unindex idx id) : isDocFor d id = false := by
  have := (List.mem_filter.mp h).2
  simpa using this

/-! ## Claims -/

/-- C1: the claim fails on the code. For the asset `a.txt` whose stream
delivers the single chunk "hi" (bytes 104, 105), fingerprinting succeeds and
retains those bytes, but the publish step writes the bytes of the for..in
loop key "0" (byte 48) to the blob store — the array index as a string, not
the asset's original bytes — while the remote name and the declared content
type are as claimed. -/
theorem publish_writes_index_strings_not_content :
    (publish (fingerprint
        { name := "a.txt", type := "text/plain", content := [[104, 105]] })).2.bytes
      = [48] ∧
    (fingerprint
        { name := "a.txt", type := "text/plain", content := [[104, 105]] }).chunks.flatten
      = [104, 105] ∧
    ([48] : Bytes) ≠ [104, 105] ∧
    (publish (fingerprint
        { name := "a.txt", type := "text/plain", content := [[104, 105]] })).2.contentType
      = "text/plain" :=
  ⟨rfl, rfl, by decide, rfl⟩

/-- C2: the claim fails on the code. For a successful one-asset batch the
accept summary keys are the original names, but every value is the literal
FIXME placeholder string "wat", not a publicly resolvable URL in the asset
container. -/
theorem accept_summary_value_is_placeholder :
    acceptSummary [{ name := "logo.png", type := "image/png", content := [[1, 2]] }]
      = [("logo.png", "wat")] :=
  rfl

/-- C5: a store call (either generation) succeeds exactly when both backend
writes succeed; when the blob branch fails its error is the one reported,
when only the index branch fails that error is reported; and a branch that
succeeded keeps its write in place regardless of the other branch's outcome
(no rollback). -/
theorem store_dual_write_semantics (st : State) (id : String) (e : Envelope)
    (be ie : Option Err) (er : Err) :
    ((storeNew st id e be ie).2 = none ↔ be = none ∧ ie = none) ∧
    (storeNew st id e (some er) ie).2 = some er ∧
    (storeNew st id e none ie).2 = ie ∧
    objLookup (storeNew st id e none ie).1.blob (encodeURIComponent id) = some e ∧
    (storeNew st id e be none).1.index = st.index ++ [indexDocFor id e] ∧
    ((storeOld st id e be ie).2 = none ↔ be = none ∧ ie = none) ∧
    (storeOld st id e (some er) ie).2 = some er ∧
    (storeOld st id e none ie).2 = ie ∧
    objLookup (storeOld st id e none ie).1.blob (encodeURIComponent id) = some e := by
  refine ⟨?_, ?_, ?_, ?_, ?_, ?_, ?_, ?_, ?_⟩ <;>
    cases be <;> cases ie <;>
      simp [storeNew, storeOld, firstErr, objLookup_objInsert_self]

/-- C9: in the waterfall store handler, whenever the blob upload fails the
call returns with that error and the whole state — in particular the index
collection — is exactly the initial one: the index write was never
attempted. -/
theorem waterfall_store_skips_index_on_blob_failure (st : State) (id : String)
    (e : Envelope) (er : Err) (ie : Option Err) :
    (storeOld st id e (some er) ie).1.index = st.index ∧
    (storeOld st id e (some er) ie).1 = st ∧
    (storeOld st id e (some er) ie).2 = some er :=
  ⟨rfl, rfl, rfl⟩

/-- C10: the error branch of the accept callback is not terminal — after the
500 status, error body and next() it continues into the success path, whose
effects (evaluating results.forEach on whatever results value the failed map
produced) always follow and are never empty. -/
theorem accept_error_branch_falls_through (e : Err)
    (results : Option (List FingerprintedAsset)) :
    acceptCallback (some e) results
      = [Effect.status 500, Effect.sendErrorBody, Effect.next]
          ++ acceptCallback none results ∧
    acceptCallback none results ≠ [] := by
  constructor
  · rfl
  · cases results <;> simp [acceptCallback, successEffects]

/-- C3 counterexample: the claim fails on the older delete handler. With
`post-42` stored and indexed, its delete succeeds yet the index collection
still holds the document for `post-42` (the blob object alone is removed),
so the backends do not both drop their entries. -/
theorem delete_old_leaves_index_document :
    (deleteOld
        { blob := [(encodeURIComponent "post-42", [("title", JValue.str "Hi")])],
          index := [indexDocFor "post-42" [("title", JValue.str "Hi")]] }
        "post-42" none).2 = none ∧
    (deleteOld
        { blob := [(encodeURIComponent "post-42", [("title", JValue.str "Hi")])],
          index := [indexDocFor "post-42" [("title", JValue.str "Hi")]] }
        "post-42" none).1.index
      = [indexDocFor "post-42" [("title", JValue.str "Hi")]] ∧
    isDocFor (indexDocFor "post-42" [("title", JValue.str "Hi")]) "post-42" = true ∧
    objLookup
      (deleteOld
        { blob := [(encodeURIComponent "post-42", [("title", JValue.str "Hi")])],
          index := [indexDocFor "post-42" [("title", JValue.str "Hi")]] }
        "post-42" none).1.blob (encodeURIComponent "post-42") = none :=
  ⟨rfl, rfl, by decide, by simp [deleteOld, objLookup_objRemove_self]⟩

/-- C3 (amended): the parallel delete handler, on success of both branches,
removes the blob object and every index document for the ContentID, and a
subsequent retrieve yields NotFound; the older delete handler removes only
the blob object and leaves the index collection untouched. -/
theorem delete_removes_both_backends (st : State) (id : String)
    (av : List (String × String)) :
    (deleteNew st id none none).2 = none ∧
    objLookup (deleteNew st id none none).1.blob (encodeURIComponent id) = none ∧
    ((deleteNew st id none none).1.index.all (fun d => !(isDocFor d id))) = true ∧
    retrieve (deleteNew st id none none).1 id av = RetrieveResult.notFound ∧
    (deleteOld st id none).2 = none ∧
    objLookup (deleteOld st id none).1.blob (encodeURIComponent id) = none ∧
    (deleteOld st id none).1.index = st.index := by
  refine ⟨rfl, ?_, ?_, ?_, rfl, ?_, rfl⟩
  · simp [deleteNew, objLookup_objRemove_self]
  · simp only [deleteNew, List.all_eq_true]
    intro d hd
    simpa using isDocFor_of_mem_unindex hd
  · simp [retrieve, deleteNew, objLookup_objRemove_self]
  · simp [deleteOld, objLookup_objRemove_self]

/-- C4 counterexample: the claim fails on the code. Storing the envelope
`{title: "Hi"}` under `post-42` and retrieving it yields the waterfall
document whose top-level fields are `envelope` (holding the whole envelope,
nested) and `assets` — not the envelope's own `title` field plus `assets`. -/
theorem retrieve_nests_envelope_under_envelope_key :
    retrieve (storeOld { blob := [], index := [] } "post-42"
        [("title", JValue.str "Hi")] none none).1 "post-42" []
      = RetrieveResult.ok
          [("envelope", JValue.obj [("title", JValue.str "Hi")]),
           ("assets", JValue.obj [])] ∧
    ([("envelope", JValue.obj [("title", JValue.str "Hi")]),
      ("assets", JValue.obj [])].map Prod.fst)
      ≠ ([("title", JValue.str "Hi")].map Prod.fst ++ ["assets"]) := by
  constructor
  · simp [retrieve, storeOld, objLookup_objInsert_self, assetsObj]
  · decide

/-- C4 (amended): after a successful store (either generation) of envelope
`e` under `id`, retrieve returns a document with exactly the two top-level
fields `envelope` — holding `e` verbatim, with no field of `e` renamed or
mutated — and the injected `assets` field; `e`'s fields sit nested under
`envelope` rather than at top level. -/
theorem store_retrieve_roundtrip (st : State) (id : String) (e : Envelope)
    (av : List (String × String)) :
    retrieve (storeOld st id e none none).1 id av
      = RetrieveResult.ok [("envelope", JValue.obj e), ("assets", assetsObj av)] ∧
    retrieve (storeNew st id e none none).1 id av
      = RetrieveResult.ok [("envelope", JValue.obj e), ("assets", assetsObj av)] := by
  constructor <;> simp [retrieve, storeOld, storeNew, objLookup_objInsert_self]

/-- C6: fingerprinting is chunk-boundary independent — two streams that
deliver the same byte sequence in different chunkings produce the same hex
digest, and hence the same fingerprinted name for the same original name. -/
theorem fingerprint_digest_chunk_invariant (name mime : String)
    (cs1 cs2 : List Bytes) (h : cs1.flatten = cs2.flatten) :
    fingerprintDigest { name := name, type := mime, content := cs1 }
      = fingerprintDigest { name := name, type := mime, content := cs2 } ∧
    (fingerprint { name := name, type := mime, content := cs1 }).filename
      = (fingerprint { name := name, type := mime, content := cs2 }).filename := by
  have hd : fingerprintDigest { name := name, type := mime, content := cs1 }
      = fingerprintDigest { name := name, type := mime, content := cs2 } := by
    unfold fingerprintDigest
    rw [foldl_hashUpdate, foldl_hashUpdate]
    simp [h]
  exact ⟨hd, by simp [fingerprint, hd]⟩

/-- Witness for C6 at the bytes "hi!" split as ["hi", "!"] versus
["h", "i!"]. -/
theorem fingerprint_digest_chunk_invariant_witness :
    ([[104], [105, 33]] : List Bytes).flatten
      = ([[104, 105], [33]] : List Bytes).flatten ∧
    (fingerprint ⟨"logo.png", "image/png", [[104], [105, 33]]⟩).filename
      = (fingerprint ⟨"logo.png", "image/png", [[104, 105], [33]]⟩).filename :=
  ⟨by decide,
   (fingerprint_digest_chunk_invariant "logo.png" "image/png"
      [[104], [105, 33]] [[104, 105], [33]] (by decide)).2⟩

theorem scanExt_no_dot (l : List Char) (hl : ∀ c ∈ l, c ≠ '.')
    (rest acc : List Char) :
    scanExt (l ++ rest) acc = scanExt rest (l.reverse ++ acc) := by
  induction l generalizing acc with
  | nil => simp
  | cons c l ih =>
    have hc : ¬ c = '.' := hl c (List.mem_cons_self c l)
    have hl' : ∀ x ∈ l, x ≠ '.' := fun x hx => hl x (List.mem_cons_of_mem _ hx)
    rw [List.cons_append,
      show scanExt (c :: (l ++ rest)) acc = scanExt (l ++ rest) (c :: acc) by
        simp [scanExt, hc],
      ih hl' (c :: acc)]
    simp

theorem splitName_dotted (b e : String) (hb : b ≠ "")
    (he : ∀ c ∈ e.data, c ≠ '.') :
    splitName (b ++ "." ++ e) = (b, "." ++ e) := by
  obtain ⟨bl⟩ := b
  obtain ⟨el⟩ := e
  have hbl : bl ≠ [] := fun h => hb (by rw [h])
  have hdata : ((String.mk bl ++ "." ++ String.mk el)).data = bl ++ '.' :: el := by
    simp [String.data_append]
  unfold splitName
  rw [hdata, show (bl ++ '.' :: el).reverse = el.reverse ++ '.' :: bl.reverse by simp,
    scanExt_no_dot el.reverse (fun c hc => he c (List.mem_reverse.mp hc)) _ []]
  simp only [List.reverse_reverse, List.append_nil]
  rw [show scanExt ('.' :: bl.reverse) el
        = some (bl.reverse.reverse, el) by
      simp [scanExt, List.reverse_eq_nil_iff, hbl]]
  simp only [List.reverse_reverse]
  rfl

/-- C7: for a file name of the shape `basename.ext` (nonempty basename, no
dot in the extension body), the fingerprinted name is the basename, a
hyphen, the hex digest, and then the original extension:
`basename-digestHex.ext`. -/
theorem fingerprinted_name_is_basename_digest_ext (b e mime : String)
    (cs : List Bytes) (hb : b ≠ "") (he : ∀ c ∈ e.data, c ≠ '.') :
    (fingerprint { name := b ++ "." ++ e, type := mime, content := cs }).filename
      = b ++ "-"
          ++ fingerprintDigest { name := b ++ "." ++ e, type := mime, content := cs }
          ++ ("." ++ e) := by
  simp [fingerprint, splitName_dotted b e hb he]

/-- Witness for C7 at the name "logo.png". -/
theorem fingerprinted_name_witness :
    ("logo" : String) ≠ "" ∧ (∀ c ∈ ("png" : String).data, c ≠ '.') ∧
    (fingerprint ⟨"logo" ++ "." ++ "png", "image/png", [[1]]⟩).filename
      = "logo" ++ "-"
          ++ fingerprintDigest ⟨"logo" ++ "." ++ "png", "image/png", [[1]]⟩
          ++ ("." ++ "png") :=
  ⟨by decide, by decide,
   fingerprinted_name_is_basename_digest_ext "logo" "png" "image/png" [[1]]
     (by decide) (by decide)⟩

/-- C8: for an envelope with distinct keys, the index document holds a pair
`(k, v)` exactly when it is the added `content_id` entry or `k` is one of
title, publish_date, tags, categories and `(k, v)` is verbatim a field of
the envelope — absent projection fields are omitted and no other envelope
field is indexed. -/
theorem index_document_fields (id : String) (e : Envelope)
    (hnd : (e.map Prod.fst).Nodup) (k : String) (v : JValue) :
    (k, v) ∈ indexDocFor id e ↔
      (k = "content_id" ∧ v = JValue.str id) ∨ (k ∈ pickKeys ∧ (k, v) ∈ e) := by
  have hnotin : "content_id" ∉ (lodashPick e pickKeys).map Prod.fst := by
    intro hmem
    rcases List.mem_map.mp hmem with ⟨p, hp, hfst⟩
    obtain ⟨k', v'⟩ := p
    have hk' := (mem_lodashPick.mp hp).1
    rw [show Prod.fst (k', v') = k' from rfl] at hfst
    rw [hfst] at hk'
    exact absurd hk' (by decide)
  rw [indexDocFor, objInsert_of_notMem _ hnotin, List.mem_append,
    List.mem_singleton]
  constructor
  · rintro (hp | hs)
    · rcases mem_lodashPick.mp hp with ⟨hk, hv⟩
      exact Or.inr ⟨hk, mem_of_objLookup hv⟩
    · injection hs with h1 h2
      exact Or.inl ⟨h1, h2⟩
  · rintro (⟨rfl, rfl⟩ | ⟨hk, hv⟩)
    · exact Or.inr rfl
    · exact Or.inl (mem_lodashPick.mpr ⟨hk, objLookup_of_mem_nodup hnd hv⟩)

/-- Witness for C8 at the literal-scenario envelope
`{title: "Hi", tags: ["a","b"], body: "x"}` and the field `title`. -/
theorem index_document_fields_witness :
    (([("title", JValue.str "Hi"), ("tags", JValue.strs ["a", "b"]),
       ("body", JValue.str "x")].map Prod.fst).Nodup) ∧
    ((("title", JValue.str "Hi") ∈
        indexDocFor "post-42"
          [("title", JValue.str "Hi"), ("tags", JValue.strs ["a", "b"]),
           ("body", JValue.str "x")]) ↔
      (("title" = "content_id" ∧ JValue.str "Hi" = JValue.str "post-42") ∨
       ("title" ∈ pickKeys ∧ ("title", JValue.str "Hi") ∈
          [("title", JValue.str "Hi"), ("tags", JValue.strs ["a", "b"]),
           ("body", JValue.str "x")]))) :=
  ⟨by decide,
   index_document_fields "post-42"
     [("title", JValue.str "Hi"), ("tags", JValue.strs ["a", "b"]),
      ("body", JValue.str "x")] (by decide) "title" (JValue.str "Hi")⟩
